import Mathlib

/-!
Verification development for the photo-gallery-designer storage/cache core.

The definitions below are a shallow embedding of the storage subsystem:
* the image processor (resizeImage in PhotoCanvas.tsx), with JS number
  arithmetic modelled exactly over the rationals;
* cache key derivation (getCacheKey in PhotoCanvas.tsx), with the JS
  template-literal number-to-decimal-string conversion embedded as an
  executable decimal printer;
* the IndexedDB-backed gallery and image-cache stores (indexedDBStorage.ts),
  with an object store with keyPath id modelled as a list of records whose
  ids are unique, and put/get/getAll/delete/clear translated operation by
  operation;
* the legacy localStorage layer (galleryStorage.ts) as a finite map from
  string keys to structured values (JSON.parse after JSON.stringify of one
  of the stored shapes is the identity on these shapes, so values are kept
  structured);
* the migration helper migrateFromLocalStorage, and the cache write/read
  wrappers setCachedImage / getCachedImage / processImage of PhotoCanvas.tsx,
  with each fallible external operation given by an outcome parameter
  (an Except value) so that every catch-and-retry path of the source is
  represented explicitly.
-/

namespace PhotoGallery

/-- A width/height pair. JS numbers are modelled by rationals; resize results
can be fractional in the source (the returned width/height are the computed
floating values), so the components are rationals, not naturals. -/
structure Size where
  width : ℚ
  height : ℚ
deriving DecidableEq, Repr

/-- CachedImage record of indexedDBStorage.ts (the CachedImage interface). -/
structure CachedImage where
  id : String
  originalName : String
  processedUrl : String
  thumbnailUrl : String
  originalSize : Size
  processedSize : Size
  timestamp : ℤ
  fileSize : ℕ
deriving DecidableEq, Repr

/-- GalleryPhoto of types/Gallery.ts. Optional fields are Option values. -/
structure GalleryPhoto where
  id : String
  url : String
  name : String
  x : ℚ
  y : ℚ
  thumbnailUrl : Option String
  originalSize : Option Size
  processedSize : Option Size
deriving DecidableEq, Repr

/-- GalleryImage of types/Gallery.ts. -/
structure GalleryImage where
  id : String
  url : String
  name : String
  thumbnailUrl : Option String
  originalSize : Option Size
  processedSize : Option Size
deriving DecidableEq, Repr

/-- The settings field of Gallery. -/
structure GallerySettings where
  imageSize : ℚ
  canvasBackground : Option String
deriving DecidableEq, Repr

/-- The metadata field of Gallery (denormalized counts plus preview). -/
structure GalleryMetadata where
  photoCount : ℕ
  libraryCount : ℕ
  previewThumbnail : Option String
deriving DecidableEq, Repr

/-- Gallery of types/Gallery.ts. Date fields are epoch milliseconds. -/
structure Gallery where
  id : String
  name : String
  description : Option String
  createdAt : ℤ
  updatedAt : ℤ
  photos : List GalleryPhoto
  imageLibrary : List GalleryImage
  settings : GallerySettings
  metadata : GalleryMetadata
deriving DecidableEq, Repr

/-- GalleryListItem of types/Gallery.ts: the listing projection. -/
structure GalleryListItem where
  id : String
  name : String
  description : Option String
  createdAt : ℤ
  updatedAt : ℤ
  metadata : GalleryMetadata
deriving DecidableEq, Repr

/-! Image processor (resizeImage of PhotoCanvas.tsx). -/

/-- MAX_IMAGE_SIZE of PhotoCanvas.tsx. -/
def MAX_IMAGE_SIZE : ℚ := 2048

/-- THUMBNAIL_SIZE of PhotoCanvas.tsx. -/
def THUMBNAIL_SIZE : ℚ := 200

/-- The dimension computation of resizeImage (PhotoCanvas.tsx lines 24-48):
starting from the decoded image dimensions, if width > maxSize or
height > maxSize then the longer side is set to maxSize and the other side
scaled proportionally; otherwise the dimensions are unchanged.  Returns the
(width, height) that the source both sets on the canvas and resolves with. -/
def resizeDims (width height maxSize : ℚ) : ℚ × ℚ :=
  if width > maxSize ∨ height > maxSize then
    if width > height then
      (maxSize, height * maxSize / width)
    else
      (width * maxSize / height, maxSize)
  else
    (width, height)

/-! Cache key derivation (getCacheKey of PhotoCanvas.tsx). -/

/-- Decimal digits of a natural number, most significant first, as the JS
number-to-string conversion produces them for a nonnegative integer. -/
def natToDigits (n : ℕ) : List ℕ :=
  if _h : n < 10 then [n]
  else natToDigits (n / 10) ++ [n % 10]
termination_by n
decreasing_by exact Nat.div_lt_self (by omega) (by omega)

/-- Character for one decimal digit. -/
def digitChar (d : ℕ) : Char := Char.ofNat (48 + d)

/-- Decimal string of a natural number: the embedding of the JS
template-literal conversion of a nonnegative integer to a string. -/
def natToString (n : ℕ) : String := String.mk ((natToDigits n).map digitChar)

/-- CACHE_PREFIX of PhotoCanvas.tsx (the source constant is named
CACHE_PREFIX; the cache keys it produces start with this string). -/
def cacheKeyBase : String := "photo-gallery-cache-"

/-- getCacheKey of PhotoCanvas.tsx: the template literal
CACHE_PREFIX + fileName + "-" + fileSize + "-" + lastModified. -/
def getCacheKey (fileName : String) (fileSize lastModified : ℕ) : String :=
  cacheKeyBase ++ fileName ++ "-" ++ natToString fileSize ++ "-" ++ natToString lastModified

/-! IndexedDB gallery store (indexedDBStorage.ts).  An object store created
with keyPath id is a finite map keyed by id; it is modelled as a list of
records in insertion order whose ids are pairwise distinct.  put overwrites
the record with the same key if present and inserts otherwise; get returns
the record with the key or null; getAll returns all records; delete removes
the record with the key (a silent no-op when absent). -/

/-- IDBObjectStore.put on the galleries store (IndexedDBStorage.saveGallery):
overwrite by key id, insert when the key is absent. -/
def idbSaveGallery (db : List Gallery) (g : Gallery) : List Gallery :=
  if db.any (fun h => h.id == g.id) then
    db.map (fun h => if h.id == g.id then g else h)
  else
    db ++ [g]

/-- IDBObjectStore.get on the galleries store (IndexedDBStorage.getGallery):
request.result || null becomes an Option. -/
def idbGetGallery (db : List Gallery) (id : String) : Option Gallery :=
  db.find? (fun h => h.id == id)

/-- The projection IndexedDBStorage.getAllGalleries applies to each stored
gallery (id, name, description, createdAt, updatedAt, metadata). -/
def toListItem (g : Gallery) : GalleryListItem :=
  { id := g.id
    name := g.name
    description := g.description
    createdAt := g.createdAt
    updatedAt := g.updatedAt
    metadata := g.metadata }

/-- IndexedDBStorage.getAllGalleries: getAll followed by the projection. -/
def idbGetAllGalleries (db : List Gallery) : List GalleryListItem :=
  db.map toListItem

/-- IDBObjectStore.delete on the galleries store
(IndexedDBStorage.deleteGallery). -/
def idbDeleteGallery (db : List Gallery) (id : String) : List Gallery :=
  db.filter (fun h => !(h.id == id))

/-! IndexedDB image cache store (indexedDBStorage.ts). -/

/-- IDBObjectStore.put on the image cache store
(IndexedDBStorage.cacheImage): overwrite by key id. -/
def idbCacheImage (cache : List CachedImage) (c : CachedImage) : List CachedImage :=
  if cache.any (fun h => h.id == c.id) then
    cache.map (fun h => if h.id == c.id then c else h)
  else
    cache ++ [c]

/-- IDBObjectStore.get on the image cache store
(IndexedDBStorage.getCachedImage). -/
def idbGetCachedImage (cache : List CachedImage) (id : String) : Option CachedImage :=
  cache.find? (fun h => h.id == id)

/-- The default maxAgeMs of IndexedDBStorage.clearOldCache:
7 * 24 * 60 * 60 * 1000 milliseconds (seven days). -/
def SEVEN_DAYS_MS : ℤ := 7 * 24 * 60 * 60 * 1000

/-- IndexedDBStorage.clearOldCache: with cutoffTime = now - maxAgeMs, a
cursor over IDBKeyRange.upperBound(cutoffTime) on the timestamp index
deletes every record with timestamp ≤ cutoffTime (upperBound is inclusive)
and counts the deletions.  Returns the surviving store and the count. -/
def clearOldCache (now maxAgeMs : ℤ) (cache : List CachedImage) : List CachedImage × ℕ :=
  let cutoffTime := now - maxAgeMs
  (cache.filter (fun r => !(decide (r.timestamp ≤ cutoffTime))),
   (cache.filter (fun r => decide (r.timestamp ≤ cutoffTime))).length)

/-- IndexedDBStorage.clearAllCache: count then clear, returning the count. -/
def idbClearAllCache (cache : List CachedImage) : List CachedImage × ℕ :=
  ([], cache.length)

/-! Legacy localStorage layer (galleryStorage.ts).  localStorage is a finite
map from string keys to JSON strings.  JSON.stringify followed by JSON.parse
is the identity on the stored shapes, so values are kept structured: a
listing array, a full gallery document, or an opaque other value. -/

/-- A value held in localStorage, kept structured. -/
inductive LSValue where
  | listing (items : List GalleryListItem)
  | doc (g : Gallery)
  | other (s : String)
deriving DecidableEq, Repr

/-- localStorage contents: association list from key to value, one entry per
key (localStorage.setItem overwrites). -/
abbrev LocalStorage : Type := List (String × LSValue)

/-- localStorage.getItem. -/
def lsGet (ls : LocalStorage) (key : String) : Option LSValue :=
  (List.find? (fun p => p.fst == key) ls).map Prod.snd

/-- localStorage.removeItem. -/
def lsRemove (ls : LocalStorage) (key : String) : LocalStorage :=
  List.filter (fun p => !(p.fst == key)) ls

/-- GALLERY_LIST_KEY of galleryStorage.ts: the key under which the legacy
GalleryStorage writes the listing. -/
def GALLERY_LIST_KEY : String := "photo-gallery-list"

/-- The key prefix under which the legacy GalleryStorage writes each full
gallery document (source constant GALLERY_STORAGE_PREFIX); the document of
gallery id is stored at this string followed by id. -/
def galleryDocKeyBase : String := "photo-gallery-"

/-- The listing key that IndexedDBStorage.migrateFromLocalStorage reads
(string literal galleryListKey in the source). -/
def migrationListKey : String := "photo-gallery-galleries"

/-- The document key that IndexedDBStorage.migrateFromLocalStorage reads for
a listed gallery id (template literal in the source). -/
def migrationDocKey (id : String) : String := "photo-gallery-gallery-" ++ id

/-- IndexedDBStorage.migrateFromLocalStorage: read the listing under
migrationListKey; when present, for each listed gallery read its document
under migrationDocKey and put it into the IndexedDB gallery store; then
remove the listing key and each document key from localStorage.  When the
listing key is absent (or does not parse as a listing, in which case the
surrounding catch swallows the error) nothing changes. -/
def migrateFromLocalStorage (ls : LocalStorage) (db : List Gallery) :
    LocalStorage × List Gallery :=
  match lsGet ls migrationListKey with
  | some (LSValue.listing galleryList) =>
      let db2 := galleryList.foldl
        (fun acc item =>
          match lsGet ls (migrationDocKey item.id) with
          | some (LSValue.doc g) => idbSaveGallery acc g
          | _ => acc) db
      let ls2 := galleryList.foldl
        (fun acc item => lsRemove acc (migrationDocKey item.id))
        (lsRemove ls migrationListKey)
      (ls2, db2)
  | _ => (ls, db)

/-! Legacy cache cleanup (GalleryStorage.clearOldCacheEntries).  The source
iterates the localStorage keys that start with the cache key prefix; the
relevant state is the list of cache entries, each with its key, the parsed
timestamp (absent when the JSON has none or does not parse), and its size.
JS float arithmetic on these integer-valued quantities is exact rational
arithmetic. -/

/-- One localStorage cache entry as GalleryStorage.clearOldCacheEntries
sees it: key, parsed timestamp when present, stored string length. -/
structure LegacyCacheEntry where
  key : String
  timestamp : Option ℤ
  size : ℕ
deriving DecidableEq, Repr

/-- CACHE_EXPIRY_DAYS of GalleryStorage.clearOldCacheEntries (3 days,
reduced from 7). -/
def CACHE_EXPIRY_DAYS : ℚ := 3

/-- The expiry test of GalleryStorage.clearOldCacheEntries: an entry is
expired when it has no (parseable) timestamp, or when
(now - timestamp) / (1000*60*60*24) > CACHE_EXPIRY_DAYS. -/
def legacyExpired (now : ℤ) (e : LegacyCacheEntry) : Bool :=
  match e.timestamp with
  | none => true
  | some ts => decide ((now - ts : ℚ) / (1000 * 60 * 60 * 24) > CACHE_EXPIRY_DAYS)

/-- The sort key of the aggressive phase: cachedData.timestamp || 0. -/
def legacyTsKey (e : LegacyCacheEntry) : ℤ := e.timestamp.getD 0

/-- Result of GalleryStorage.clearOldCacheEntries: the entries removed by
the expiry pass, the entries removed by the aggressive pass, and the
surviving entries. -/
structure LegacyCleanupResult where
  expiredRemoved : List LegacyCacheEntry
  aggressiveRemoved : List LegacyCacheEntry
  surviving : List LegacyCacheEntry
deriving DecidableEq, Repr

/-- GalleryStorage.clearOldCacheEntries: first remove every expired entry;
then, over the remaining cache entries, sort ascending by timestamp || 0 and
unconditionally remove the oldest Math.ceil(n * 0.5) of the n remaining
entries (for a list whose guard n > 0 fails nothing is removed, which
coincides with removing ceil(0/2) = 0 entries).  Math.ceil(n * 0.5) on an
exactly-represented count n is (n + 1) / 2 in natural division. -/
def clearOldCacheEntries (now : ℤ) (entries : List LegacyCacheEntry) :
    LegacyCleanupResult :=
  let expired := entries.filter (legacyExpired now)
  let remaining := entries.filter (fun e => !(legacyExpired now e))
  let sorted := remaining.mergeSort (fun a b => decide (legacyTsKey a ≤ legacyTsKey b))
  let toRemove := (remaining.length + 1) / 2
  { expiredRemoved := expired
    aggressiveRemoved := sorted.take toRemove
    surviving := sorted.drop toRemove }

/-! Cache read/write wrappers of PhotoCanvas.tsx.  The underlying IndexedDB
operations can reject; each rejection outcome is supplied as an Except
parameter so that every try/catch path of the source is explicit. -/

/-- A rejected browser-storage operation. -/
inductive JsError where
  | quotaExceeded
  | decodeError
  | other (message : String)
deriving DecidableEq, Repr

/-- One underlying cache operation attempted by setCachedImage, recorded
with the argument that matters for the cleanup policy. -/
inductive CacheOp where
  | putAttempt
  | clearOld (maxAgeMs : ℤ)
  | clearAllOp
deriving DecidableEq, Repr

/-- setCachedImage of PhotoCanvas.tsx: try cacheImage; on any rejection,
try clearOldCache() with its default (7-day) threshold and retry cacheImage
once; a rejection of the cleanup or of the retry is caught and only logged.
Arguments are the outcomes of the first put, the cleanup, and the retry put;
the result is the list of operations attempted in order, paired with the
returned promise outcome (which the source always fulfills). -/
def setCachedImage (put1 : Except JsError Unit) (cleanup : Except JsError ℕ)
    (put2 : Except JsError Unit) : List CacheOp × Except JsError Unit :=
  match put1 with
  | Except.ok _ => ([CacheOp.putAttempt], Except.ok ())
  | Except.error _ =>
    match cleanup with
    | Except.error _ =>
        ([CacheOp.putAttempt, CacheOp.clearOld SEVEN_DAYS_MS], Except.ok ())
    | Except.ok _ =>
      match put2 with
      | Except.ok _ =>
          ([CacheOp.putAttempt, CacheOp.clearOld SEVEN_DAYS_MS, CacheOp.putAttempt],
           Except.ok ())
      | Except.error _ =>
          ([CacheOp.putAttempt, CacheOp.clearOld SEVEN_DAYS_MS, CacheOp.putAttempt],
           Except.ok ())

/-- getCachedImage of PhotoCanvas.tsx: the result of the underlying
IndexedDBStorage.getCachedImage call, with any rejection caught and turned
into null (a cache miss). -/
def getCachedImageWrapped (readOutcome : Except JsError (Option CachedImage)) :
    Option CachedImage :=
  match readOutcome with
  | Except.ok r => r
  | Except.error _ => none

/-- processImage of PhotoCanvas.tsx: look the key up through getCachedImage
and return a hit directly; on a miss, run the two resize calls and the
original-dimension read (their joint outcome is the processing parameter:
the freshly built CachedImage, or the rejection that Promise.all propagates),
then write the fresh record through setCachedImage and return it. -/
def processImage (readOutcome : Except JsError (Option CachedImage))
    (processing : Except JsError CachedImage)
    (put1 : Except JsError Unit) (cleanup : Except JsError ℕ)
    (put2 : Except JsError Unit) : Except JsError CachedImage :=
  match getCachedImageWrapped readOutcome with
  | some cached => Except.ok cached
  | none =>
    match processing with
    | Except.error e => Except.error e
    | Except.ok fresh =>
      match setCachedImage put1 cleanup put2 with
      | (_, Except.ok _) => Except.ok fresh
      | (_, Except.error e) => Except.error e

/-! The multi-file upload flow (handleImageUpload of PhotoCanvas.tsx). -/

/-- One uploaded file together with the outcomes of the external effects the
source runs for it: the processImage result for the file, the data URL that
FileReader.readAsDataURL would produce from the raw bytes, and the generated
fallback id (Date.now() + Math.random()). -/
structure UploadFile where
  name : String
  rawDataUrl : String
  freshId : String
  outcome : Except JsError CachedImage
deriving Repr

/-- An entry of the imageLibrary state of PhotoCanvas. -/
structure LibraryEntry where
  id : String
  url : String
  name : String
  thumbnailUrl : Option String
  originalSize : Option Size
  processedSize : Option Size
deriving DecidableEq, Repr

/-- The per-file branch of handleImageUpload: a successful processImage call
yields the processed entry; a rejection is caught for that file alone and
the raw data URL read back by FileReader becomes the entry, with no
thumbnail and no size fields. -/
def processUploadFile (f : UploadFile) : LibraryEntry :=
  match f.outcome with
  | Except.ok c =>
      { id := c.id
        url := c.processedUrl
        name := c.originalName
        thumbnailUrl := some c.thumbnailUrl
        originalSize := some c.originalSize
        processedSize := some c.processedSize }
  | Except.error _ =>
      { id := f.freshId
        url := f.rawDataUrl
        name := f.name
        thumbnailUrl := none
        originalSize := none
        processedSize := none }

/-- handleImageUpload of PhotoCanvas.tsx: all files of the batch are mapped
through the per-file branch (joined by Promise.all) and appended to the
existing library. -/
def handleImageUpload (library : List LibraryEntry) (files : List UploadFile) :
    List LibraryEntry :=
  library ++ files.map processUploadFile

/-- The image LibraryItem renders (and drags) for an entry:
image.thumbnailUrl || image.url in the source. -/
def displayedThumbnail (e : LibraryEntry) : String :=
  e.thumbnailUrl.getD e.url

/-! Well-formedness of denormalized counts, and concrete sample data used by
counterexamples and witnesses. -/

/-- The denormalized counts of a gallery document agree with the lists they
summarize (the invariant the owning caller re-establishes before saving). -/
def wfCounts (g : Gallery) : Prop :=
  g.metadata.photoCount = g.photos.length ∧
  g.metadata.libraryCount = g.imageLibrary.length

/-- The ids of the galleries held in a store. -/
def idbIds (db : List Gallery) : List String :=
  db.map (fun g => g.id)

/-- A concrete cached-image record with a given id and timestamp. -/
def mkCachedImage (id : String) (ts : ℤ) : CachedImage :=
  { id := id
    originalName := "photo.jpg"
    processedUrl := "display-bytes"
    thumbnailUrl := "thumb-bytes"
    originalSize := { width := 4000, height := 3000 }
    processedSize := { width := 2048, height := 1536 }
    timestamp := ts
    fileSize := 123 }

/-- A concrete empty gallery document with a given id and name. -/
def mkGallery (id name : String) : Gallery :=
  { id := id
    name := name
    description := none
    createdAt := 0
    updatedAt := 0
    photos := []
    imageLibrary := []
    settings := { imageSize := 300, canvasBackground := none }
    metadata := { photoCount := 0, libraryCount := 0, previewThumbnail := none } }

/-- Sample gallery Alpha. -/
def gA : Gallery := mkGallery "g1" "Alpha"

/-- Sample gallery Beta. -/
def gB : Gallery := mkGallery "g2" "Beta"

/-- A gallery whose denormalized photo count disagrees with its photo list:
photos is empty but metadata.photoCount is 1. -/
def badGallery : Gallery :=
  { mkGallery "bad" "Bad" with
      metadata := { photoCount := 1, libraryCount := 0, previewThumbnail := none } }

/-- The localStorage contents that the legacy GalleryStorage actually
produces for the two sample galleries: the listing under GALLERY_LIST_KEY
and each full document under GALLERY_STORAGE_PREFIX followed by the id. -/
def legacyState : LocalStorage :=
  [(GALLERY_LIST_KEY, LSValue.listing [toListItem gA, toListItem gB]),
   (galleryDocKeyBase ++ gA.id, LSValue.doc gA),
   (galleryDocKeyBase ++ gB.id, LSValue.doc gB)]

/-- A cache record sitting exactly at the expiry boundary for
clearOldCache 200 100: its age now - timestamp is exactly maxAgeMs. -/
def tieRecord : CachedImage := mkCachedImage "tie" 100

/-- An upload whose processing succeeds. -/
def fileOk : UploadFile :=
  { name := "a.jpg", rawDataUrl := "raw-bytes-a", freshId := "idA",
    outcome := Except.ok (mkCachedImage "cacheA" 5) }

/-- An upload whose processing fails with a decode error. -/
def fileBad : UploadFile :=
  { name := "b.jpg", rawDataUrl := "raw-bytes-b", freshId := "idB",
    outcome := Except.error JsError.decodeError }

/-- A fresh legacy cache entry with a given key and timestamp. -/
def mkLegacyEntry (key : String) (ts : ℤ) : LegacyCacheEntry :=
  { key := key, timestamp := some ts, size := 10 }

/-! Theorems.  Helper lemmas come first, then one theorem (plus witness or
counterexample) per claim. -/

theorem resizeDims_spec (w h cap : ℚ) (hw : 0 < w) (hh : 0 < h) (hcap : 0 < cap) :
    (cap < max w h → max (resizeDims w h cap).1 (resizeDims w h cap).2 = cap)
    ∧ (max w h ≤ cap → resizeDims w h cap = (w, h))
    ∧ (resizeDims w h cap).1 * h = (resizeDims w h cap).2 * w
    ∧ (resizeDims w h cap).1 ≤ cap ∧ (resizeDims w h cap).2 ≤ cap
    ∧ (resizeDims w h cap).1 ≤ w ∧ (resizeDims w h cap).2 ≤ h := by
  unfold resizeDims
  by_cases hcond : w > cap ∨ h > cap
  · rw [if_pos hcond]
    by_cases hwh : w > h
    · rw [if_pos hwh]
      have hwc : cap < w := by
        rcases hcond with hc | hc
        · exact hc
        · linarith
      have hdiv : h * cap / w ≤ cap := by
        rw [div_le_iff₀ hw]; nlinarith
      have hdivh : h * cap / w ≤ h := by
        rw [div_le_iff₀ hw]; nlinarith
      refine ⟨fun _ => ?_, fun hle => ?_, ?_, ?_, ?_, ?_, ?_⟩
      · exact max_eq_left hdiv
      · exfalso
        have := le_max_left w h
        linarith
      · show cap * h = h * cap / w * w
        field_simp
        ring
      · exact le_refl cap
      · exact hdiv
      · exact le_of_lt hwc
      · exact hdivh
    · rw [if_neg hwh]
      push_neg at hwh
      have hhc : cap < h := by
        rcases hcond with hc | hc
        · linarith
        · exact hc
      have hdiv : w * cap / h ≤ cap := by
        rw [div_le_iff₀ hh]; nlinarith
      have hdivw : w * cap / h ≤ w := by
        rw [div_le_iff₀ hh]; nlinarith
      refine ⟨fun _ => ?_, fun hle => ?_, ?_, ?_, ?_, ?_, ?_⟩
      · exact max_eq_right hdiv
      · exfalso
        have := le_max_right w h
        linarith
      · show w * cap / h * h = cap * w
        field_simp
        ring
      · exact hdiv
      · exact le_refl cap
      · exact hdivw
      · exact le_of_lt hhc
  · rw [if_neg hcond]
    push_neg at hcond
    obtain ⟨hwle, hhle⟩ := hcond
    refine ⟨fun hlt => ?_, fun _ => rfl, ?_, ?_, ?_, le_refl w, le_refl h⟩
    · exact absurd hlt (not_lt.mpr (max_le hwle hhle))
    · show w * h = h * w
      ring
    · exact hwle
    · exact hhle

/-- C4: for every decodable input with positive dimensions and every
positive target cap, resizeDims leaves the dimensions unchanged when neither
exceeds the cap and otherwise makes the longer side exactly the cap; the
aspect ratio is preserved exactly (cross-multiplication), so within 1px
rounding; the output never exceeds the cap or the original in either
dimension; hence the display variant fits in 2048 and the thumbnail in
200. -/
theorem imageProcessor_contract (w h cap : ℚ) (hw : 0 < w) (hh : 0 < h)
    (hcap : 0 < cap) :
    (cap < max w h → max (resizeDims w h cap).1 (resizeDims w h cap).2 = cap)
    ∧ (max w h ≤ cap → resizeDims w h cap = (w, h))
    ∧ (resizeDims w h cap).1 * h = (resizeDims w h cap).2 * w
    ∧ (resizeDims w h cap).1 ≤ cap ∧ (resizeDims w h cap).2 ≤ cap
    ∧ (resizeDims w h cap).1 ≤ w ∧ (resizeDims w h cap).2 ≤ h
    ∧ (resizeDims w h MAX_IMAGE_SIZE).1 ≤ 2048
    ∧ (resizeDims w h MAX_IMAGE_SIZE).2 ≤ 2048
    ∧ (resizeDims w h THUMBNAIL_SIZE).1 ≤ 200
    ∧ (resizeDims w h THUMBNAIL_SIZE).2 ≤ 200 := by
  obtain ⟨c1, c2, c3, c4, c5, c6, c7⟩ := resizeDims_spec w h cap hw hh hcap
  obtain ⟨_, _, _, d4, d5, _, _⟩ :=
    resizeDims_spec w h MAX_IMAGE_SIZE hw hh (by norm_num [MAX_IMAGE_SIZE])
  obtain ⟨_, _, _, t4, t5, _, _⟩ :=
    resizeDims_spec w h THUMBNAIL_SIZE hw hh (by norm_num [THUMBNAIL_SIZE])
  refine ⟨c1, c2, c3, c4, c5, c6, c7, ?_, ?_, ?_, ?_⟩
  · simpa [MAX_IMAGE_SIZE] using d4
  · simpa [MAX_IMAGE_SIZE] using d5
  · simpa [THUMBNAIL_SIZE] using t4
  · simpa [THUMBNAIL_SIZE] using t5

/-- C4 witness: the spec's example input, a 4000 by 3000 image, yields a
2048 by 1536 display variant and a 200 by 150 thumbnail. -/
theorem imageProcessor_contract_witness :
    ((0:ℚ) < 4000 ∧ (0:ℚ) < 3000 ∧ (0:ℚ) < 2048)
    ∧ max (resizeDims 4000 3000 2048).1 (resizeDims 4000 3000 2048).2 = 2048
    ∧ resizeDims 4000 3000 2048 = (2048, 1536)
    ∧ resizeDims 4000 3000 200 = (200, 150) :=
  ⟨⟨by norm_num, by norm_num, by norm_num⟩,
   (imageProcessor_contract 4000 3000 2048 (by norm_num) (by norm_num)
      (by norm_num)).1 (lt_max_iff.mpr (Or.inl (by norm_num))),
   by norm_num [resizeDims],
   by norm_num [resizeDims]⟩

theorem natToDigits_foldl (n : ℕ) :
    List.foldl (fun a d => 10 * a + d) 0 (natToDigits n) = n := by
  induction n using Nat.strong_induction_on with
  | _ n ih =>
    unfold natToDigits
    split
    · simp
    · rename_i hge
      rw [List.foldl_append]
      have hrec := ih (n / 10) (Nat.div_lt_self (by omega) (by omega))
      simp only [List.foldl_cons, List.foldl_nil, hrec]
      omega

theorem natToDigits_injective : Function.Injective natToDigits := by
  intro a b hab
  have ha := natToDigits_foldl a
  have hb := natToDigits_foldl b
  rw [hab] at ha
  omega

theorem natToDigits_lt_ten (n : ℕ) : ∀ d ∈ natToDigits n, d < 10 := by
  induction n using Nat.strong_induction_on with
  | _ n ih =>
    unfold natToDigits
    split
    · rename_i hlt
      intro d hd
      simp at hd
      omega
    · rename_i hge
      intro d hd
      rw [List.mem_append] at hd
      rcases hd with hd | hd
      · exact ih (n / 10) (Nat.div_lt_self (by omega) (by omega)) d hd
      · simp at hd
        omega

theorem digitChar_inj_on : ∀ d < 10, ∀ e < 10, digitChar d = digitChar e → d = e := by
  decide

theorem map_digitChar_inj : ∀ l1 l2 : List ℕ, (∀ d ∈ l1, d < 10) → (∀ d ∈ l2, d < 10) →
    l1.map digitChar = l2.map digitChar → l1 = l2 := by
  intro l1
  induction l1 with
  | nil =>
    intro l2 _ _ hmap
    cases l2 with
    | nil => rfl
    | cons b t2 => simp at hmap
  | cons a t1 ih =>
    intro l2 h1 h2 hmap
    cases l2 with
    | nil => simp at hmap
    | cons b t2 =>
      simp only [List.map_cons, List.cons.injEq] at hmap
      have hhead : a = b :=
        digitChar_inj_on a (h1 a (List.mem_cons_self a t1)) b
          (h2 b (List.mem_cons_self b t2)) hmap.1
      have htail : t1 = t2 :=
        ih t2 (fun d hd => h1 d (List.mem_cons_of_mem a hd))
          (fun d hd => h2 d (List.mem_cons_of_mem b hd)) hmap.2
      rw [hhead, htail]

theorem natToString_injective : Function.Injective natToString := by
  intro a b hab
  have hdata : (natToDigits a).map digitChar = (natToDigits b).map digitChar :=
    congrArg String.data hab
  exact natToDigits_injective
    (map_digitChar_inj (natToDigits a) (natToDigits b)
      (natToDigits_lt_ten a) (natToDigits_lt_ten b) hdata)

/-- C8: getCacheKey is the pure deterministic function of the triple
(name, byteSize, lastModifiedEpochMs) given by the source's template
literal, and changing any single one of the three components while holding
the other two fixed changes the key. -/
theorem getCacheKey_deterministic_injective :
    (∀ n s m, getCacheKey n s m
      = cacheKeyBase ++ n ++ "-" ++ natToString s ++ "-" ++ natToString m)
    ∧ (∀ n1 n2 s m, getCacheKey n1 s m = getCacheKey n2 s m → n1 = n2)
    ∧ (∀ n s1 s2 m, getCacheKey n s1 m = getCacheKey n s2 m → s1 = s2)
    ∧ (∀ n s m1 m2, getCacheKey n s m1 = getCacheKey n s m2 → m1 = m2) := by
  refine ⟨fun n s m => rfl, ?_, ?_, ?_⟩
  · intro n1 n2 s m hkey
    have hd := congrArg String.data hkey
    simp only [getCacheKey, String.data_append, List.append_assoc] at hd
    have h1 := List.append_cancel_left hd
    have h2 := List.append_cancel_right h1
    exact String.ext h2
  · intro n s1 s2 m hkey
    have hd := congrArg String.data hkey
    simp only [getCacheKey, String.data_append, List.append_assoc] at hd
    have h1 := List.append_cancel_left (List.append_cancel_left
      (List.append_cancel_left hd))
    have h2 := List.append_cancel_right h1
    exact natToString_injective (String.ext h2)
  · intro n s m1 m2 hkey
    have hd := congrArg String.data hkey
    simp only [getCacheKey, String.data_append, List.append_assoc] at hd
    have h1 := List.append_cancel_left (List.append_cancel_left
      (List.append_cancel_left (List.append_cancel_left
        (List.append_cancel_left hd))))
    exact natToString_injective (String.ext h1)

/-- C8 witness: the injectivity implications applied at concrete triples. -/
theorem getCacheKey_deterministic_injective_witness :
    getCacheKey "a.jpg" 100 2000 = getCacheKey "a.jpg" 100 2000
    ∧ ("a.jpg" : String) = "a.jpg" ∧ (100 : ℕ) = 100 ∧ (2000 : ℕ) = 2000 :=
  ⟨rfl,
   getCacheKey_deterministic_injective.2.1 "a.jpg" "a.jpg" 100 2000 rfl,
   getCacheKey_deterministic_injective.2.2.1 "a.jpg" 100 100 2000 rfl,
   getCacheKey_deterministic_injective.2.2.2 "a.jpg" 100 2000 2000 rfl⟩

/-- C2 counterexample: when the first write fails with storage exhaustion,
the cleanup succeeds, and the retried write fails with storage exhaustion
again, setCachedImage attempts put, clearOldCache with the full 7-day
default threshold (604800000 ms, not a tightened one), and one retried put;
it never attempts clearAll and fulfills its promise instead of surfacing a
fatal storage-full error. -/
theorem setCachedImage_ladder_counterexample :
    setCachedImage (Except.error JsError.quotaExceeded) (Except.ok 5)
        (Except.error JsError.quotaExceeded)
      = ([CacheOp.putAttempt, CacheOp.clearOld SEVEN_DAYS_MS, CacheOp.putAttempt],
         Except.ok ())
    ∧ SEVEN_DAYS_MS = 604800000 :=
  ⟨rfl, by decide⟩

/-- C2 amended: on any cache write failure, setCachedImage runs the expired
sweep once with the normal 7-day threshold (never a tightened one), retries
the write once, and absorbs every outcome: the result is always fulfilled,
clearAll is never attempted, and no failure is surfaced to the caller. -/
theorem setCachedImage_single_retry (put1 : Except JsError Unit)
    (cleanup : Except JsError ℕ) (put2 : Except JsError Unit) :
    (setCachedImage put1 cleanup put2).2 = Except.ok ()
    ∧ CacheOp.clearAllOp ∉ (setCachedImage put1 cleanup put2).1
    ∧ (∀ a, CacheOp.clearOld a ∈ (setCachedImage put1 cleanup put2).1 →
        a = SEVEN_DAYS_MS)
    ∧ (put1 = Except.ok () →
        (setCachedImage put1 cleanup put2).1 = [CacheOp.putAttempt]) := by
  cases put1 with
  | ok u =>
    refine ⟨rfl, by simp [setCachedImage], ?_, fun _ => rfl⟩
    intro a ha
    simp [setCachedImage] at ha
  | error e =>
    cases cleanup with
    | ok k =>
      cases put2 with
      | ok u =>
        refine ⟨rfl, by simp [setCachedImage], ?_, by simp⟩
        intro a ha
        simp [setCachedImage] at ha
        exact ha
      | error e2 =>
        refine ⟨rfl, by simp [setCachedImage], ?_, by simp⟩
        intro a ha
        simp [setCachedImage] at ha
        exact ha
    | error e1 =>
      refine ⟨rfl, by simp [setCachedImage], ?_, by simp⟩
      intro a ha
      simp [setCachedImage] at ha
      exact ha

/-- C2 amended witness: the amended theorem applied at concrete outcomes. -/
theorem setCachedImage_single_retry_witness :
    (setCachedImage (Except.ok ()) (Except.ok 0) (Except.ok ())).1
      = [CacheOp.putAttempt]
    ∧ (setCachedImage (Except.error JsError.quotaExceeded) (Except.ok 0)
        (Except.error JsError.quotaExceeded)).2 = Except.ok ()
    ∧ SEVEN_DAYS_MS = SEVEN_DAYS_MS :=
  ⟨(setCachedImage_single_retry (Except.ok ()) (Except.ok 0)
      (Except.ok ())).2.2.2 rfl,
   (setCachedImage_single_retry (Except.error JsError.quotaExceeded)
      (Except.ok 0) (Except.error JsError.quotaExceeded)).1,
   (setCachedImage_single_retry (Except.error JsError.quotaExceeded)
      (Except.ok 0) (Except.error JsError.quotaExceeded)).2.2.1 SEVEN_DAYS_MS
      (by simp [setCachedImage])⟩

/-- C10: a failed underlying cache read is absorbed by getCachedImage and
treated exactly like a cache miss, so processImage reprocesses the file and,
whatever the cache write outcomes are (including a failure of the single
cleanup-and-retry), still fulfills with the freshly processed record; a
cache hit is returned as is. -/
theorem processImage_absorbs_cache_errors (e : JsError) (fresh c : CachedImage)
    (processing : Except JsError CachedImage) (put1 : Except JsError Unit)
    (cleanup : Except JsError ℕ) (put2 : Except JsError Unit) :
    getCachedImageWrapped (Except.error e) = none
    ∧ processImage (Except.error e) processing put1 cleanup put2
        = processImage (Except.ok none) processing put1 cleanup put2
    ∧ processImage (Except.error e) (Except.ok fresh) put1 cleanup put2
        = Except.ok fresh
    ∧ processImage (Except.ok none) (Except.ok fresh) put1 cleanup put2
        = Except.ok fresh
    ∧ processImage (Except.ok (some c)) processing put1 cleanup put2
        = Except.ok c := by
  refine ⟨rfl, rfl, ?_, ?_, rfl⟩
  · cases put1 with
    | ok u => rfl
    | error e1 =>
      cases cleanup with
      | ok k =>
        cases put2 with
        | ok u => rfl
        | error e2 => rfl
      | error e1 => rfl
  · cases put1 with
    | ok u => rfl
    | error e1 =>
      cases cleanup with
      | ok k =>
        cases put2 with
        | ok u => rfl
        | error e2 => rfl
      | error e1 => rfl

theorem filter_length_partition {α : Type} (p : α → Bool) (l : List α) :
    (l.filter p).length + (l.filter (fun a => !(p a))).length = l.length := by
  induction l with
  | nil => rfl
  | cons a t ih =>
    by_cases h : p a <;> simp [List.filter_cons, h] <;> omega

/-- C3 counterexample: a record whose age is exactly maxAgeMs (timestamp
100, now 200, maxAgeMs 100) is deleted by clearOldCache, because the cursor
range upperBound(now - maxAgeMs) is inclusive; the claim says the tie is
kept. -/
theorem clearOldCache_tie_counterexample :
    (clearOldCache 200 100 [tieRecord]).1 = []
    ∧ (clearOldCache 200 100 [tieRecord]).2 = 1
    ∧ (200 : ℤ) - tieRecord.timestamp = 100 := by
  refine ⟨?_, ?_, ?_⟩ <;> decide

/-- C3 amended: clearOldCache deletes a stored record exactly when
now - timestamp is at least maxAgeMs (the cutoff is inclusive, so the tie is
deleted); a record one millisecond past the boundary is removed, one
millisecond inside is kept, and the returned count is exactly the number of
deleted records. -/
theorem clearOldCache_boundary (now maxAgeMs : ℤ) (cache : List CachedImage)
    (r : CachedImage) (hr : r ∈ cache) :
    (r ∈ (clearOldCache now maxAgeMs cache).1 ↔ now - r.timestamp < maxAgeMs)
    ∧ (r.timestamp = now - maxAgeMs - 1 →
        r ∉ (clearOldCache now maxAgeMs cache).1)
    ∧ (r.timestamp = now - maxAgeMs + 1 →
        r ∈ (clearOldCache now maxAgeMs cache).1)
    ∧ (clearOldCache now maxAgeMs cache).2
        + (clearOldCache now maxAgeMs cache).1.length = cache.length := by
  have hmem : r ∈ (clearOldCache now maxAgeMs cache).1 ↔
      now - r.timestamp < maxAgeMs := by
    constructor
    · intro hin
      have hb := (List.mem_filter.mp hin).2
      simp at hb
      omega
    · intro hlt
      refine List.mem_filter.mpr ⟨hr, ?_⟩
      simp
      omega
  refine ⟨hmem, ?_, ?_, ?_⟩
  · intro hts
    rw [hmem]
    omega
  · intro hts
    rw [hmem]
    omega
  · simp only [clearOldCache]
    have := filter_length_partition
      (fun r : CachedImage => decide (r.timestamp ≤ now - maxAgeMs)) cache
    omega

/-- C3 amended witness: a fresh record one millisecond inside the boundary
is kept, and the count plus the survivors account for the whole store. -/
theorem clearOldCache_boundary_witness :
    mkCachedImage "fresh" 450 ∈ [mkCachedImage "fresh" 450]
    ∧ mkCachedImage "fresh" 450 ∈ (clearOldCache 500 100 [mkCachedImage "fresh" 450]).1
    ∧ (clearOldCache 500 100 [mkCachedImage "fresh" 450]).2
        + (clearOldCache 500 100 [mkCachedImage "fresh" 450]).1.length = 1 :=
  ⟨List.mem_cons_self _ _,
   (clearOldCache_boundary 500 100 [mkCachedImage "fresh" 450]
      (mkCachedImage "fresh" 450) (List.mem_cons_self _ _)).1.mpr (by decide),
   by
    have h := (clearOldCache_boundary 500 100 [mkCachedImage "fresh" 450]
      (mkCachedImage "fresh" 450) (List.mem_cons_self _ _)).2.2.2
    simpa using h⟩

theorem find?_replace (db : List Gallery) (g : Gallery)
    (hany : db.any (fun h => h.id == g.id) = true) :
    (db.map (fun h => if h.id == g.id then g else h)).find?
      (fun h => h.id == g.id) = some g := by
  induction db with
  | nil => simp at hany
  | cons a t ih =>
    by_cases ha : a.id == g.id
    · simp [List.find?, ha]
    · have htail : t.any (fun h => h.id == g.id) = true := by
        simp [List.any_cons, ha] at hany
        simpa using hany
      have ha2 : (a.id == g.id) = false := by simpa using ha
      simp only [List.map_cons, List.find?_cons, ha2, Bool.false_eq_true,
        if_false]
      exact ih htail

theorem find?_append_self (db : List Gallery) (g : Gallery)
    (hany : db.any (fun h => h.id == g.id) = false) :
    (db ++ [g]).find? (fun h => h.id == g.id) = some g := by
  induction db with
  | nil => simp [List.find?]
  | cons a t ih =>
    simp only [List.any_cons, Bool.or_eq_false_iff] at hany
    rw [List.cons_append]
    simp only [List.find?_cons, hany.1]
    exact ih hany.2

theorem idbGetGallery_save (db : List Gallery) (g : Gallery) :
    idbGetGallery (idbSaveGallery db g) g.id = some g := by
  unfold idbGetGallery idbSaveGallery
  by_cases hany : db.any (fun h => h.id == g.id)
  · rw [if_pos hany]
    exact find?_replace db g hany
  · rw [if_neg hany]
    exact find?_append_self db g (by simpa using hany)

/-- C6: save followed by get of the same id returns the saved document with
every field equal (in particular updatedAt is unchanged, hence at least its
value at save time), and get of an id held by no stored document returns
none rather than an error. -/
theorem saveGet_roundTrip (db : List Gallery) (g : Gallery) (i : String)
    (habsent : ∀ d ∈ db, d.id ≠ i) :
    idbGetGallery (idbSaveGallery db g) g.id = some g
    ∧ (∀ r, idbGetGallery (idbSaveGallery db g) g.id = some r →
        g.updatedAt ≤ r.updatedAt)
    ∧ idbGetGallery db i = none := by
  refine ⟨idbGetGallery_save db g, ?_, ?_⟩
  · intro r hr
    rw [idbGetGallery_save db g] at hr
    cases hr
    exact le_refl _
  · unfold idbGetGallery
    rw [List.find?_eq_none]
    intro d hd
    simpa using habsent d hd

/-- C6 witness: the round trip at a concrete store and document, and a get
of an absent id on a nonempty store. -/
theorem saveGet_roundTrip_witness :
    idbGetGallery (idbSaveGallery [gB] gA) gA.id = some gA
    ∧ idbGetGallery [gB] "missing" = none :=
  ⟨(saveGet_roundTrip [gB] gA "missing" (by decide)).1,
   (saveGet_roundTrip [gB] gA "missing" (by decide)).2.2⟩

/-- C7: in a multi-file upload batch, every file contributes exactly one
library entry in order (the batch is never aborted, and the entry added at
each position depends only on that file); a file whose processing fails
falls back, for that file alone, to an entry whose display url is the raw
unprocessed data URL, which the library view then also uses as the
thumbnail representation; no error escapes the per-file handler. -/
theorem uploadBatch_per_file_fallback (library : List LibraryEntry)
    (files : List UploadFile) :
    (handleImageUpload library files).length = library.length + files.length
    ∧ (∀ i, (handleImageUpload library files)[library.length + i]?
        = (files[i]?).map processUploadFile)
    ∧ (∀ f ∈ files, ∀ e, f.outcome = Except.error e →
        processUploadFile f
          = { id := f.freshId, url := f.rawDataUrl, name := f.name,
              thumbnailUrl := none, originalSize := none,
              processedSize := none }
        ∧ (processUploadFile f).url = f.rawDataUrl
        ∧ displayedThumbnail (processUploadFile f) = f.rawDataUrl)
    ∧ (∀ f ∈ files, processUploadFile f ∈ handleImageUpload library files) := by
  refine ⟨?_, ?_, ?_, ?_⟩
  · simp [handleImageUpload]
  · intro i
    unfold handleImageUpload
    rw [List.getElem?_append_right (by omega)]
    simp
  · intro f _ e hfail
    refine ⟨?_, ?_, ?_⟩ <;> simp [processUploadFile, hfail, displayedThumbnail]
  · intro f hf
    unfold handleImageUpload
    exact List.mem_append_right _ (List.mem_map_of_mem processUploadFile hf)

/-- C7 witness: a two-file batch in which the first file fails to process
and the second succeeds; both files land in the library, and the failed one
carries its raw bytes as display and thumbnail. -/
theorem uploadBatch_per_file_fallback_witness :
    (handleImageUpload [] [fileBad, fileOk]).length = 0 + 2
    ∧ displayedThumbnail (processUploadFile fileBad) = fileBad.rawDataUrl
    ∧ processUploadFile fileOk ∈ handleImageUpload [] [fileBad, fileOk] :=
  ⟨(uploadBatch_per_file_fallback [] [fileBad, fileOk]).1,
   ((uploadBatch_per_file_fallback [] [fileBad, fileOk]).2.2.1 fileBad
      (List.mem_cons_self _ _) JsError.decodeError rfl).2.2,
   (uploadBatch_per_file_fallback [] [fileBad, fileOk]).2.2.2 fileOk
      (List.mem_cons_of_mem _ (List.mem_cons_self _ _))⟩

theorem pairwise_take_drop {α : Type} {R : α → α → Prop} {l : List α}
    (h : List.Pairwise R l) (k : ℕ) :
    ∀ a ∈ l.take k, ∀ b ∈ l.drop k, R a b := by
  have h2 : List.Pairwise R (l.take k ++ l.drop k) := by
    rw [List.take_append_drop]
    exact h
  exact (List.pairwise_append.mp h2).2.2

/-- C9: the legacy expired-entry cleanup, after deleting the expired
entries, unconditionally deletes the ceil(n/2) oldest (by timestamp) of the
n remaining entries — with no check that space is still needed and even
though every remaining entry is fresh — so at most half of the fresh
entries survive one invocation. -/
theorem legacyCleanup_aggressive_halving (now : ℤ)
    (entries : List LegacyCacheEntry)
    (hn : 1 ≤ (entries.filter (fun e => !(legacyExpired now e))).length) :
    (clearOldCacheEntries now entries).expiredRemoved
        = entries.filter (legacyExpired now)
    ∧ (clearOldCacheEntries now entries).aggressiveRemoved.length
        = ((entries.filter (fun e => !(legacyExpired now e))).length + 1) / 2
    ∧ 1 ≤ (clearOldCacheEntries now entries).aggressiveRemoved.length
    ∧ 2 * (clearOldCacheEntries now entries).surviving.length
        ≤ (entries.filter (fun e => !(legacyExpired now e))).length
    ∧ (∀ a ∈ (clearOldCacheEntries now entries).aggressiveRemoved,
        ∀ b ∈ (clearOldCacheEntries now entries).surviving,
          legacyTsKey a ≤ legacyTsKey b)
    ∧ (∀ b ∈ (clearOldCacheEntries now entries).surviving,
        legacyExpired now b = false) := by
  have htrans : ∀ a b c : LegacyCacheEntry,
      decide (legacyTsKey a ≤ legacyTsKey b) →
      decide (legacyTsKey b ≤ legacyTsKey c) →
      decide (legacyTsKey a ≤ legacyTsKey c) := by
    intro a b c hab hbc
    simp only [decide_eq_true_iff] at hab hbc ⊢
    omega
  have htotal : ∀ a b : LegacyCacheEntry,
      decide (legacyTsKey a ≤ legacyTsKey b)
        || decide (legacyTsKey b ≤ legacyTsKey a) := by
    intro a b
    simp only [Bool.or_eq_true, decide_eq_true_iff]
    omega
  have hsorted := List.sorted_mergeSort htrans htotal
    (entries.filter (fun e => !(legacyExpired now e)))
  have hlen : ((entries.filter (fun e => !(legacyExpired now e))).mergeSort
      (fun a b => decide (legacyTsKey a ≤ legacyTsKey b))).length
      = (entries.filter (fun e => !(legacyExpired now e))).length :=
    List.length_mergeSort _
  refine ⟨rfl, ?_, ?_, ?_, ?_, ?_⟩
  · simp only [clearOldCacheEntries, List.length_take, hlen]
    omega
  · simp only [clearOldCacheEntries, List.length_take, hlen]
    omega
  · simp only [clearOldCacheEntries, List.length_drop, hlen]
    omega
  · intro a ha b hb
    simp only [clearOldCacheEntries] at ha hb
    have := pairwise_take_drop hsorted
      (((entries.filter (fun e => !(legacyExpired now e))).length + 1) / 2)
      a ha b hb
    simpa using this
  · intro b hb
    simp only [clearOldCacheEntries] at hb
    have hmem : b ∈ (entries.filter (fun e => !(legacyExpired now e))).mergeSort
        (fun a b => decide (legacyTsKey a ≤ legacyTsKey b)) :=
      List.mem_of_mem_drop hb
    rw [List.mem_mergeSort] at hmem
    have := (List.mem_filter.mp hmem).2
    simpa using this

/-- C9 witness: two fresh entries; one invocation removes one of them (the
older) although the expiry pass removed nothing and both entries are
fresh. -/
theorem legacyCleanup_aggressive_halving_witness :
    1 ≤ (([mkLegacyEntry "k1" 10, mkLegacyEntry "k2" 20]).filter
        (fun e => !(legacyExpired 100 e))).length
    ∧ (clearOldCacheEntries 100
        [mkLegacyEntry "k1" 10, mkLegacyEntry "k2" 20]).expiredRemoved
        = ([mkLegacyEntry "k1" 10, mkLegacyEntry "k2" 20]).filter
            (legacyExpired 100)
    ∧ 2 * (clearOldCacheEntries 100
        [mkLegacyEntry "k1" 10, mkLegacyEntry "k2" 20]).surviving.length
        ≤ (([mkLegacyEntry "k1" 10, mkLegacyEntry "k2" 20]).filter
            (fun e => !(legacyExpired 100 e))).length :=
  ⟨by norm_num [List.filter_cons, List.filter_nil, legacyExpired,
      mkLegacyEntry, CACHE_EXPIRY_DAYS],
   (legacyCleanup_aggressive_halving 100
      [mkLegacyEntry "k1" 10, mkLegacyEntry "k2" 20]
      (by norm_num [List.filter_cons, List.filter_nil, legacyExpired,
        mkLegacyEntry, CACHE_EXPIRY_DAYS])).1,
   (legacyCleanup_aggressive_halving 100
      [mkLegacyEntry "k1" 10, mkLegacyEntry "k2" 20]
      (by norm_num [List.filter_cons, List.filter_nil, legacyExpired,
        mkLegacyEntry, CACHE_EXPIRY_DAYS])).2.2.2.1⟩

theorem listing_countP (db : List Gallery) (j : String) :
    (idbGetAllGalleries db).countP (fun e => e.id == j)
      = db.countP (fun d => d.id == j) := by
  unfold idbGetAllGalleries
  rw [List.countP_map]
  rfl

theorem ids_save_overwrite (db : List Gallery) (g : Gallery)
    (hany : db.any (fun h => h.id == g.id) = true) :
    idbIds (idbSaveGallery db g) = idbIds db := by
  unfold idbSaveGallery idbIds
  rw [if_pos hany, List.map_map]
  apply List.map_congr_left
  intro a _
  by_cases ha : a.id == g.id
  · simp only [Function.comp_apply, if_pos ha]
    exact (eq_of_beq ha).symm
  · simp only [Function.comp_apply, if_neg ha]

theorem nodup_ids_save (db : List Gallery) (g : Gallery)
    (hnd : (idbIds db).Nodup) : (idbIds (idbSaveGallery db g)).Nodup := by
  by_cases hany : db.any (fun h => h.id == g.id) = true
  · rw [ids_save_overwrite db g hany]
    exact hnd
  · have heq : idbIds (idbSaveGallery db g) = idbIds db ++ [g.id] := by
      unfold idbSaveGallery idbIds
      rw [if_neg hany, List.map_append]
      rfl
    have hnotin : g.id ∉ idbIds db := by
      intro hmem
      obtain ⟨d, hd, hdid⟩ := List.mem_map.mp hmem
      apply hany
      rw [List.any_eq_true]
      exact ⟨d, hd, by simp [hdid]⟩
    rw [heq]
    simp [List.nodup_append, hnd, hnotin]

theorem nodup_ids_delete (db : List Gallery) (i : String)
    (hnd : (idbIds db).Nodup) : (idbIds (idbDeleteGallery db i)).Nodup := by
  have hsub : List.Sublist (idbIds (idbDeleteGallery db i)) (idbIds db) :=
    List.Sublist.map _ (List.filter_sublist db)
  exact hnd.sublist hsub

theorem wf_save (db : List Gallery) (g : Gallery)
    (hwf : ∀ d ∈ db, wfCounts d) (hg : wfCounts g) :
    ∀ d ∈ idbSaveGallery db g, wfCounts d := by
  intro d hd
  unfold idbSaveGallery at hd
  by_cases hany : db.any (fun h => h.id == g.id) = true
  · rw [if_pos hany] at hd
    obtain ⟨a, ha, hmap⟩ := List.mem_map.mp hd
    by_cases hid : a.id == g.id
    · rw [if_pos hid] at hmap
      rw [← hmap]
      exact hg
    · rw [if_neg hid] at hmap
      rw [← hmap]
      exact hwf a ha
  · rw [if_neg hany] at hd
    rcases List.mem_append.mp hd with hmem | hmem
    · exact hwf d hmem
    · rw [List.mem_singleton] at hmem
      rw [hmem]
      exact hg

theorem countP_id_eq_one (db : List Gallery) (hnd : (idbIds db).Nodup)
    (d : Gallery) (hd : d ∈ db) :
    db.countP (fun h => h.id == d.id) = 1 := by
  have h1 : db.countP (fun h => h.id == d.id)
      = (idbIds db).countP (fun s => s == d.id) := by
    unfold idbIds
    rw [List.countP_map]
    rfl
  rw [h1]
  have h2 : (idbIds db).countP (fun s => s == d.id) = (idbIds db).count d.id :=
    rfl
  rw [h2]
  exact List.count_eq_one_of_mem hnd (List.mem_map_of_mem _ hd)

theorem countP_id_eq_zero (db : List Gallery) (j : String)
    (habsent : ∀ d ∈ db, d.id ≠ j) :
    db.countP (fun h => h.id == j) = 0 := by
  rw [List.countP_eq_zero]
  intro d hd
  simpa using habsent d hd

/-- C5 counterexample: the store does not recompute the denormalized
counts; saving a document whose metadata.photoCount is 1 while photos is
empty yields a listing whose single entry carries photoCount 1 even though
the document's photos.length is 0, so the claimed equality fails for this
save. -/
theorem listing_photoCount_counterexample :
    idbGetAllGalleries (idbSaveGallery [] badGallery) = [toListItem badGallery]
    ∧ (toListItem badGallery).metadata.photoCount = 1
    ∧ badGallery.photos.length = 0 :=
  ⟨rfl, rfl, rfl⟩

/-- C5 amended: provided every stored document and the saved document carry
recomputed counts (photoCount = photos.length and libraryCount =
imageLibrary.length, which the owning caller re-establishes before every
save) and the store's ids are unique, then after a save or a delete the
listing contains exactly one entry per present document, no entry for an
absent id (in particular none for a deleted id), and every entry's
metadata counts equal its document's list lengths. -/
theorem listing_consistency (db : List Gallery) (g : Gallery) (i : String)
    (hnd : (idbIds db).Nodup) (hwf : ∀ d ∈ db, wfCounts d) (hg : wfCounts g) :
    (∀ d ∈ idbSaveGallery db g,
      (idbGetAllGalleries (idbSaveGallery db g)).countP
        (fun e => e.id == d.id) = 1)
    ∧ (∀ j, (∀ d ∈ idbSaveGallery db g, d.id ≠ j) →
        (idbGetAllGalleries (idbSaveGallery db g)).countP
          (fun e => e.id == j) = 0)
    ∧ (∀ e ∈ idbGetAllGalleries (idbSaveGallery db g),
        ∃ d ∈ idbSaveGallery db g, d.id = e.id
          ∧ e.metadata.photoCount = d.photos.length
          ∧ e.metadata.libraryCount = d.imageLibrary.length)
    ∧ (∀ d ∈ idbDeleteGallery db i,
      (idbGetAllGalleries (idbDeleteGallery db i)).countP
        (fun e => e.id == d.id) = 1)
    ∧ (idbGetAllGalleries (idbDeleteGallery db i)).countP
        (fun e => e.id == i) = 0
    ∧ (∀ e ∈ idbGetAllGalleries (idbDeleteGallery db i),
        ∃ d ∈ idbDeleteGallery db i, d.id = e.id
          ∧ e.metadata.photoCount = d.photos.length
          ∧ e.metadata.libraryCount = d.imageLibrary.length) := by
  refine ⟨?_, ?_, ?_, ?_, ?_, ?_⟩
  · intro d hd
    rw [listing_countP]
    exact countP_id_eq_one _ (nodup_ids_save db g hnd) d hd
  · intro j hj
    rw [listing_countP]
    exact countP_id_eq_zero _ j hj
  · intro e he
    obtain ⟨d, hd, hmap⟩ := List.mem_map.mp he
    have hw := wf_save db g hwf hg d hd
    refine ⟨d, hd, ?_, ?_, ?_⟩
    · rw [← hmap]
      rfl
    · rw [← hmap]
      exact hw.1.symm ▸ rfl
    · rw [← hmap]
      exact hw.2.symm ▸ rfl
  · intro d hd
    rw [listing_countP]
    exact countP_id_eq_one _ (nodup_ids_delete db i hnd) d hd
  · rw [listing_countP]
    apply countP_id_eq_zero
    intro d hd
    have := (List.mem_filter.mp hd).2
    simpa using this
  · intro e he
    obtain ⟨d, hd, hmap⟩ := List.mem_map.mp he
    have hw := hwf d (List.mem_of_mem_filter hd)
    refine ⟨d, hd, ?_, ?_, ?_⟩
    · rw [← hmap]
      rfl
    · rw [← hmap]
      exact hw.1.symm ▸ rfl
    · rw [← hmap]
      exact hw.2.symm ▸ rfl

/-- C5 amended witness: a concrete one-document store with recomputed
counts; saving a second document and deleting the first both leave the
listing with exactly one entry per present id and none for the deleted
id. -/
theorem listing_consistency_witness :
    (idbIds [gA]).Nodup
    ∧ (idbGetAllGalleries (idbSaveGallery [gA] gB)).countP
        (fun e => e.id == gB.id) = 1
    ∧ (idbGetAllGalleries (idbDeleteGallery [gA] gA.id)).countP
        (fun e => e.id == gA.id) = 0 :=
  ⟨by decide,
   (listing_consistency [gA] gB gA.id (by decide)
      (by
        intro d hd
        rw [List.mem_singleton] at hd
        rw [hd]
        exact ⟨rfl, rfl⟩)
      ⟨rfl, rfl⟩).1 gB (by decide),
   (listing_consistency [gA] gB gA.id (by decide)
      (by
        intro d hd
        rw [List.mem_singleton] at hd
        rw [hd]
        exact ⟨rfl, rfl⟩)
      ⟨rfl, rfl⟩).2.2.2.2.1⟩

/-- C1: on legacy data stored under the keys the legacy GalleryStorage
actually writes (the listing under photo-gallery-list and each document
under photo-gallery- followed by the id), migrateFromLocalStorage is a
no-op: it reads the non-matching keys photo-gallery-galleries and
photo-gallery-gallery-id, finds nothing, migrates nothing into the new
store (list() stays empty), and leaves every legacy key in place. -/
theorem migration_misses_legacy_keys :
    migrateFromLocalStorage legacyState [] = (legacyState, [])
    ∧ idbGetAllGalleries (migrateFromLocalStorage legacyState []).2 = []
    ∧ lsGet (migrateFromLocalStorage legacyState []).1 GALLERY_LIST_KEY
        = some (LSValue.listing [toListItem gA, toListItem gB])
    ∧ lsGet (migrateFromLocalStorage legacyState []).1
        (galleryDocKeyBase ++ gA.id) = some (LSValue.doc gA)
    ∧ lsGet (migrateFromLocalStorage legacyState []).1
        (galleryDocKeyBase ++ gB.id) = some (LSValue.doc gB)
    ∧ lsGet legacyState migrationListKey = none := by
  refine ⟨?_, ?_, ?_, ?_, ?_, ?_⟩ <;> decide

end PhotoGallery
